import Mathlib

/-!
Shallow embedding of `src/include/OneShotChannel.hpp` and
`src/include/OneShotFuture.hpp` (hoche/OneShotChannel).

Modelling conventions:
* The value type `T` is a type parameter `α`; the space of application
  exceptions reachable through `std::exception_ptr` is abstracted as
  `Failure ε`, with the distinguished `std::future_error(broken_promise)`
  as `Failure.brokenPromise` and every other payload as
  `Failure.propagated e`.
* One generation (one `std::promise`/`std::shared_future` pair of the
  `Shared` struct) is a `GenState`: its shared state (`result`, `none`
  while not ready) plus the cell's `used` flag as it stood for that
  generation.
* The `Shared` cell is a `Cell`: the chronological list of generations
  already replaced by `reset_locked` (`history`) plus the current one.
  A generation id is its index in `history ++ [current]`; `curId` is the
  id of the current generation, which is what a `Receiver` pins when it
  copies `state_->future` under the lock.
* Every public operation is an atomic step (the C++ code holds
  `state_->mtx` for the whole mutation), so concurrency is modelled by
  arbitrary interleavings of atomic `Op` steps (`Cell.run`).
* Blocking is abstracted by evaluating the wait against the cell state
  at the moment the wait ends: `Receiver.get` takes the cell at call
  entry (for the snapshot) and the cell when the pinned generation is
  inspected; it yields `none` while the pinned generation is still
  pending (the caller is still blocked) and `some outcome` once it is
  ready.  `Receiver.get_for` takes the cell at entry and the cell at the
  moment `wait_for` returns (deadline or readiness, whichever is first).
* Handles hold `std::shared_ptr<Shared>`; whether a handle is empty
  (default-constructed / moved-from) is the `has : Bool` argument of
  each operation, mirroring the `if (!state_)` guards.
-/

namespace OneShotModel

/-- An exception payload carried by `std::exception_ptr`:
`std::future_error(std::future_errc::broken_promise)` is distinguished
(it is what sender disposal and promise abandonment store); any other
application exception is `propagated`. -/
inductive Failure (ε : Type) where
  | brokenPromise : Failure ε
  | propagated : ε → Failure ε
deriving DecidableEq, Repr

/-- The ready shared state of one generation: either a stored value or a
stored exception. -/
inductive Res (α ε : Type) where
  | value : α → Res α ε
  | failure : Failure ε → Res α ε
deriving DecidableEq, Repr

/-- One generation of the `Shared` struct (`OneShotChannel.hpp` lines
24-37): the promise/shared_future pair's shared state (`result = none`
while not ready) and the `used` flag as it applies to this generation
(`reset_locked` starts the next generation with `used = false`). -/
structure GenState (α ε : Type) where
  result : Option (Res α ε)
  used : Bool
deriving DecidableEq, Repr

/-- A freshly constructed generation: `Shared()` / `reset_locked` build
a new promise and share its future; nothing stored, `used = false`. -/
def GenState.fresh : GenState α ε := ⟨none, false⟩

/-- Abandonment of a `std::promise` (what `promise = std::promise<T>()`
in `reset_locked`, line 33, does to the old promise): if the shared
state is not ready, a `broken_promise` `future_error` is stored and the
state made ready; if it is ready, it is merely released. -/
def GenState.abandon (g : GenState α ε) : GenState α ε :=
  if g.result.isSome then g
  else { g with result := some (.failure .brokenPromise) }

/-- The `Shared` cell (`OneShotChannel.hpp` lines 24-37): generations
already replaced by `reset_locked`, oldest first, then the current one.
The mutex is implicit: every operation below is one atomic step. -/
structure Cell (α ε : Type) where
  history : List (GenState α ε)
  current : GenState α ε
deriving DecidableEq, Repr

/-- `Shared()` (line 30): a single fresh generation, no history. -/
def Cell.init : Cell α ε := ⟨[], GenState.fresh⟩

/-- All generations of the cell so far, in creation order. -/
def Cell.gens (c : Cell α ε) : List (GenState α ε) :=
  c.history ++ [c.current]

/-- The id of the current generation — what a receiver operation pins
when it copies `state_->future` under the lock. -/
def Cell.curId (c : Cell α ε) : Nat := c.history.length

/-- The shared state of generation `i` (none also when `i` is out of
range). -/
def Cell.resultAt (c : Cell α ε) (i : Nat) : Option (Res α ε) :=
  (c.gens[i]?).bind GenState.result

/-- `Shared::reset_locked` (lines 32-36): `promise = std::promise<T>()`
abandons the old promise's shared state (storing `broken_promise` if it
was not ready), then a fresh promise/future pair is installed and
`used = false`. -/
def Cell.reset_locked (c : Cell α ε) : Cell α ε :=
  { history := c.history ++ [c.current.abandon], current := GenState.fresh }

/-- `Sender::set_value` (lines 92-99): `false` on an empty handle; under
the lock, `false` if `used`; otherwise mark `used` and fulfil the
current generation, returning `true`. -/
def Sender.set_value (has : Bool) (c : Cell α ε) (v : α) : Bool × Cell α ε :=
  if !has then (false, c)
  else if c.current.used then (false, c)
  else (true, { c with current := { result := some (.value v), used := true } })

/-- `Sender.set_exception` (lines 101-108): same guards as `set_value`,
storing the supplied exception instead. -/
def Sender.set_exception (has : Bool) (c : Cell α ε) (f : Failure ε) :
    Bool × Cell α ε :=
  if !has then (false, c)
  else if c.current.used then (false, c)
  else (true, { c with current := { result := some (.failure f), used := true } })

/-- `Sender::reset` (lines 110-115): `false` on an empty handle,
otherwise `reset_locked` under the lock and `true`. -/
def Sender.reset (has : Bool) (c : Cell α ε) : Bool × Cell α ε :=
  if !has then (false, c) else (true, c.reset_locked)

/-- The body shared by `Sender::~Sender` (lines 79-90) and the disposal
half of `Sender::operator=(Sender&&)` (lines 62-71): with a non-empty
handle, under the lock, if `used` is not set try to store
`broken_promise` and then set `used`; `promise.set_exception` throws
(`promise_already_satisfied`) when the state is already ready, and the
`catch (...)` swallows it, leaving `used` unset in that case. -/
def Sender.dispose (has : Bool) (c : Cell α ε) : Cell α ε :=
  if !has then c
  else if c.current.used then c
  else if c.current.result.isSome then c
  else { c with current := { result := some (.failure .brokenPromise), used := true } }

/-- Effect of `Sender::operator=(Sender&& other)` (lines 59-75) on the
cell the target handle held before the assignment: nothing on
self-assignment, otherwise the disposal body above. (Afterwards the
handle adopts `other`'s cell, which is a pure handle change.) -/
def Sender.moveAssignOldCell (isSelf has : Bool) (c : Cell α ε) : Cell α ε :=
  if isSelf then c else Sender.dispose has c

/-- `Receiver::reset` (lines 179-184): textually the same as
`Sender::reset`. -/
def Receiver.reset (has : Bool) (c : Cell α ε) : Bool × Cell α ε :=
  if !has then (false, c) else (true, c.reset_locked)

/-- `Receiver`'s move constructor, move assignment and destructor are
compiler-defaulted (lines 129-132): they transfer or drop the
`shared_ptr` only and never touch the `Shared` cell, so their effect on
the cell is the identity. -/
def Receiver.dispose (has : Bool) (c : Cell α ε) : Cell α ε :=
  have _ := has
  c

/-- What `Receiver::get` raises or returns once its pinned
`shared_future` is ready: `no_state` is thrown up front on an empty
handle; a stored exception is rethrown by `local.get()`; a stored value
is returned. -/
inductive GetError (ε : Type) where
  | noState : GetError ε
  | thrown : Failure ε → GetError ε
deriving DecidableEq, Repr

/-- The outcome `shared_future::get` produces from a ready state. -/
def Res.getOutcome : Res α ε → Except (GetError ε) α
  | .value v => .ok v
  | .failure f => .error (.thrown f)

/-- `Receiver::get` (lines 134-143), two-phase: on an empty handle it
throws `future_error(no_state)` immediately; otherwise it copies the
current future under the lock (pinning generation `c0.curId`) and then
blocks on that snapshot alone.  `c0` is the cell at call entry and `c`
the cell when the pinned generation is inspected: the call is still
blocked (`none`) while that generation is pending, and yields the
generation's outcome once it is ready. -/
def Receiver.get (has : Bool) (c0 c : Cell α ε) :
    Option (Except (GetError ε) α) :=
  if !has then some (.error .noState)
  else (c.resultAt c0.curId).map Res.getOutcome

/-- `Receiver::ready` (lines 145-155): `false` on an empty handle,
otherwise whether the current generation's snapshot is already ready. -/
def Receiver.ready (has : Bool) (c : Cell α ε) : Bool :=
  if !has then false else c.current.result.isSome

/-- `Receiver::get_for` (lines 157-177): `nullopt` on an empty handle;
otherwise the future is pinned under the lock at entry (`c0.curId`) and
waited on; `c` is the cell when `wait_for` returns.  Not ready means
timeout (`none`); a ready stored exception is swallowed by the
`catch (...)` and reported as `none` too; a ready value is returned. -/
def Receiver.get_for (has : Bool) (c0 c : Cell α ε) : Option α :=
  if !has then none
  else match c.resultAt c0.curId with
    | some (.value v) => some v
    | some (.failure _) => none
    | none => none

/-- `OneShotChannel<void>::Receiver::get_for` (lines 327-348): the void
specialization returns `bool` — `false` on an empty handle, timeout or
swallowed exception, `true` when the pinned generation completed with a
value. -/
def ReceiverVoid.get_for (has : Bool) (c0 c : Cell Unit ε) : Bool :=
  if !has then false
  else match c.resultAt c0.curId with
    | some (.value _) => true
    | some (.failure _) => false
    | none => false

/-- One atomic operation on the cell through a non-empty handle (each
holds the mutex for its whole body in the C++ code). -/
inductive Op (α ε : Type) where
  | set_value (v : α)
  | set_exception (f : Failure ε)
  | resetS
  | resetR
  | disposeS
  | disposeR
deriving DecidableEq, Repr

/-- The cell after one atomic operation. -/
def Cell.step (c : Cell α ε) : Op α ε → Cell α ε
  | .set_value v => (Sender.set_value true c v).2
  | .set_exception f => (Sender.set_exception true c f).2
  | .resetS => (Sender.reset true c).2
  | .resetR => (Receiver.reset true c).2
  | .disposeS => Sender.dispose true c
  | .disposeR => Receiver.dispose true c

/-- The cell after a sequence of atomic operations (an interleaving of
the two handles' calls). -/
def Cell.run (c : Cell α ε) : List (Op α ε) → Cell α ε
  | [] => c
  | op :: ops => (c.step op).run ops

/-- One rearm-and-fulfil cycle: `reset()` on the sender followed by
`set_value(x)` — the composition exercised by the reuse tests. -/
def Cell.fulfillCycle (c : Cell α ε) (x : α) : Cell α ε :=
  (Sender.set_value true (Sender.reset true c).2 x).2

/-- The cell invariant: every generation already replaced by a reset is
ready (reset abandons a pending promise), and on the current generation
the `used` flag holds exactly when its result has been written. -/
def Cell.Inv (c : Cell α ε) : Prop :=
  (∀ g ∈ c.history, g.result.isSome = true) ∧
    c.current.used = c.current.result.isSome

/-- `OneShot<T>::Receiver::get_for` (`OneShotFuture.hpp` lines 91-97),
from the single-use variant `OneShot<T>` — one promise/future pair, no
reset, the receiver holding a plain `std::future` whose shared state at
the moment a wait ends is again an `Option (Res α ε)`:
if `wait_for` reports ready, `return fut_.get();` — a stored value is
wrapped in the optional, but a stored exception is rethrown by
`fut_.get()` and propagates to the caller (there is no `try`/`catch`
here, unlike the resettable channel's `get_for`).  Not ready within the
bound yields `nullopt`. -/
def OneShotF.Receiver.get_for (observed : Option (Res α ε)) :
    Except (Failure ε) (Option α) :=
  match observed with
  | none => .ok none
  | some (.value v) => .ok (some v)
  | some (.failure f) => .error f

/-- Generation lookup, case-split on the index against the history. -/
lemma Cell.resultAt_mk (hst : List (GenState α ε)) (g : GenState α ε) (i : Nat) :
    (Cell.mk hst g).resultAt i =
      if i < hst.length then (hst[i]?).bind GenState.result
      else if i = hst.length then g.result
      else none := by
  simp only [Cell.resultAt, Cell.gens, List.getElem?_append]
  split_ifs with h1 h2
  · rfl
  · subst h2
    simp
  · have h4 : [g][i - hst.length]? = (none : Option (GenState α ε)) := by
      rw [List.getElem?_eq_none_iff]
      simp only [List.length_singleton]
      omega
    rw [h4]
    rfl

/-- Generation lookup expressed on the cell's fields. -/
lemma Cell.resultAt_def (c : Cell α ε) (i : Nat) :
    c.resultAt i =
      if i < c.curId then (c.history[i]?).bind GenState.result
      else if i = c.curId then c.current.result
      else none :=
  Cell.resultAt_mk c.history c.current i

/-- The current generation's slot is read at index `curId`. -/
lemma Cell.resultAt_curId (c : Cell α ε) : c.resultAt c.curId = c.current.result := by
  rw [Cell.resultAt_def]
  simp

/-- Indexes beyond the current generation are unpopulated. -/
lemma Cell.resultAt_of_gt (c : Cell α ε) (i : Nat) (h : c.curId < i) :
    c.resultAt i = none := by
  rw [Cell.resultAt_def, if_neg (by omega), if_neg (by omega)]

/-- Replacing only the current generation leaves every archived slot as
it was. -/
lemma Cell.resultAt_setCurrent (c : Cell α ε) (g : GenState α ε) (i : Nat)
    (h : i < c.curId) :
    (Cell.mk c.history g).resultAt i = c.resultAt i := by
  rw [Cell.resultAt_mk, Cell.resultAt_def]
  have h2 : i < c.history.length := h
  rw [if_pos h2, if_pos h]

/-- Lookup after `reset_locked`: archived slots unchanged, the old
current slot holds its abandoned state, the new slot is unset. -/
lemma Cell.resultAt_reset_locked (c : Cell α ε) (i : Nat) :
    c.reset_locked.resultAt i =
      if i < c.curId then c.resultAt i
      else if i = c.curId then c.current.abandon.result
      else none := by
  rw [Cell.reset_locked, Cell.resultAt_mk, Cell.resultAt_def]
  simp only [Cell.curId, List.length_append, List.length_singleton]
  rcases Nat.lt_trichotomy i c.history.length with h | h | h
  · rw [if_pos (by omega : i < c.history.length + 1), List.getElem?_append]
    simp [h]
  · subst h
    rw [if_pos (by omega : c.history.length < c.history.length + 1),
      List.getElem?_append, if_neg (Nat.lt_irrefl _), if_neg (Nat.lt_irrefl _),
      if_pos rfl]
    simp
  · rw [if_neg (by omega : ¬ i < c.history.length),
      if_neg (by omega : i ≠ c.history.length)]
    by_cases h3 : i = c.history.length + 1
    · rw [if_neg (by omega : ¬ i < c.history.length + 1), if_pos h3]
      rfl
    · rw [if_neg (by omega : ¬ i < c.history.length + 1), if_neg h3]

/-- The `used` guards make a written slot permanent: one atomic step
never changes a generation's already-stored result, in any cell state
satisfying the invariant. -/
lemma Cell.resultAt_step_mono (c : Cell α ε) (op : Op α ε) (h : c.Inv)
    (i : Nat) (r : Res α ε) (hr : c.resultAt i = some r) :
    (c.step op).resultAt i = some r := by
  have hcur : c.current.used = c.current.result.isSome := h.2
  have hlt : i < c.curId ∨ i = c.curId := by
    rcases Nat.lt_trichotomy i c.curId with h1 | h1 | h1
    · exact Or.inl h1
    · exact Or.inr h1
    · rw [Cell.resultAt_of_gt c i h1] at hr
      exact absurd hr (by simp)
  have hreset : c.reset_locked.resultAt i = some r := by
    rw [Cell.resultAt_reset_locked]
    rcases hlt with h1 | h1
    · rw [if_pos h1]
      exact hr
    · subst h1
      rw [Cell.resultAt_curId] at hr
      rw [if_neg (Nat.lt_irrefl _), if_pos rfl]
      simp [GenState.abandon, hr]
  have hnotCur : c.current.used = false → i < c.curId := by
    intro hu
    rcases hlt with h1 | h1
    · exact h1
    · exfalso
      subst h1
      rw [Cell.resultAt_curId] at hr
      rw [hr] at hcur
      rw [hu] at hcur
      simp at hcur
  cases op with
  | set_value v =>
      by_cases hu : c.current.used
      · have hstep : c.step (.set_value v) = c := by
          simp [Cell.step, Sender.set_value, hu]
        rw [hstep]
        exact hr
      · have h1 := hnotCur (by simpa using hu)
        have hstep : c.step (.set_value v) =
            Cell.mk c.history { result := some (.value v), used := true } := by
          simp [Cell.step, Sender.set_value, hu]
        rw [hstep, Cell.resultAt_setCurrent c _ i h1]
        exact hr
  | set_exception f =>
      by_cases hu : c.current.used
      · have hstep : c.step (.set_exception f) = c := by
          simp [Cell.step, Sender.set_exception, hu]
        rw [hstep]
        exact hr
      · have h1 := hnotCur (by simpa using hu)
        have hstep : c.step (.set_exception f) =
            Cell.mk c.history { result := some (.failure f), used := true } := by
          simp [Cell.step, Sender.set_exception, hu]
        rw [hstep, Cell.resultAt_setCurrent c _ i h1]
        exact hr
  | resetS =>
      have hstep : c.step .resetS = c.reset_locked := by
        simp [Cell.step, Sender.reset]
      rw [hstep]
      exact hreset
  | resetR =>
      have hstep : c.step .resetR = c.reset_locked := by
        simp [Cell.step, Receiver.reset]
      rw [hstep]
      exact hreset
  | disposeS =>
      by_cases hu : c.current.used
      · have hstep : c.step .disposeS = c := by
          simp [Cell.step, Sender.dispose, hu]
        rw [hstep]
        exact hr
      · by_cases hs : c.current.result.isSome
        · have hstep : c.step .disposeS = c := by
            simp [Cell.step, Sender.dispose, hu, hs]
          rw [hstep]
          exact hr
        · have h1 := hnotCur (by simpa using hu)
          have hstep : c.step .disposeS =
              Cell.mk c.history
                { result := some (.failure .brokenPromise), used := true } := by
            simp [Cell.step, Sender.dispose, hu, hs]
          rw [hstep, Cell.resultAt_setCurrent c _ i h1]
          exact hr
  | disposeR =>
      have hstep : c.step .disposeR = c := by
        simp [Cell.step, Receiver.dispose]
      rw [hstep]
      exact hr

/-- The invariant holds at construction. -/
lemma Cell.inv_init : (Cell.init : Cell α ε).Inv := by
  constructor
  · intro g hg
    simp [Cell.init] at hg
  · rfl

/-- Every atomic step preserves the cell invariant. -/
lemma Cell.inv_step (c : Cell α ε) (op : Op α ε) (h : c.Inv) :
    (c.step op).Inv := by
  obtain ⟨hhist, hcur⟩ := h
  have hresetInv : (c.reset_locked).Inv := by
    constructor
    · intro g hg
      rw [Cell.reset_locked] at hg
      simp only [List.mem_append, List.mem_singleton] at hg
      rcases hg with hg | hg
      · exact hhist g hg
      · subst hg
        by_cases hs : c.current.result.isSome
        · simp [GenState.abandon, hs]
        · simp [GenState.abandon, hs]
    · rfl
  cases op with
  | set_value v =>
      simp only [Cell.step, Sender.set_value]
      by_cases hu : c.current.used
      · simpa [hu] using ⟨hhist, hcur⟩
      · simp only [hu, Bool.not_true, Bool.not_false, if_false, Bool.false_eq_true]
        exact ⟨hhist, rfl⟩
  | set_exception f =>
      simp only [Cell.step, Sender.set_exception]
      by_cases hu : c.current.used
      · simpa [hu] using ⟨hhist, hcur⟩
      · simp only [hu, Bool.not_true, Bool.not_false, if_false, Bool.false_eq_true]
        exact ⟨hhist, rfl⟩
  | resetS => simpa [Cell.step, Sender.reset] using hresetInv
  | resetR => simpa [Cell.step, Receiver.reset] using hresetInv
  | disposeS =>
      simp only [Cell.step, Sender.dispose]
      by_cases hu : c.current.used
      · simpa [hu] using ⟨hhist, hcur⟩
      · by_cases hs : c.current.result.isSome
        · simpa [hu, hs] using ⟨hhist, hcur⟩
        · simp only [hu, hs, Bool.not_true, Bool.not_false, if_false,
            Bool.false_eq_true]
          exact ⟨hhist, rfl⟩
  | disposeR => simpa [Cell.step, Receiver.dispose] using ⟨hhist, hcur⟩

/-- The invariant holds after any interleaving of atomic operations. -/
lemma Cell.inv_run (c : Cell α ε) (ops : List (Op α ε)) (h : c.Inv) :
    (c.run ops).Inv := by
  induction ops generalizing c with
  | nil => exact h
  | cons op ops ih => exact ih _ (Cell.inv_step c op h)

/-- A generation's stored result survives any interleaving of atomic
operations unchanged. -/
lemma Cell.resultAt_run_mono (c : Cell α ε) (ops : List (Op α ε)) (h : c.Inv)
    (i : Nat) (r : Res α ε) (hr : c.resultAt i = some r) :
    (c.run ops).resultAt i = some r := by
  induction ops generalizing c with
  | nil => exact hr
  | cons op ops ih =>
      exact ih _ (Cell.inv_step c op h) (Cell.resultAt_step_mono c op h i r hr)

/-- C1, counterexample: start from a fresh channel with an in-flight
`get()` pinned to generation 0 (still pending, so the call is blocked);
one `reset()` alone — before anyone touches generation 0's Sender —
already resolves generation 0 with `broken_promise`, because
`reset_locked`'s `promise = std::promise<T>()` abandons the old shared
state.  After `reset()` and fulfilling the new generation with `99`,
the in-flight `get()` returns BrokenContract, and generation 0 does not
hold `7` even after a further `set_value(7)` (which targets the current
generation): the claimed scenario — the pre-reset generation later
resolved by its own Sender with a value observed by the waiter — is
impossible, and the concurrent `reset()` does alter the outcome the
waiter observes. -/
theorem c1_counterexample :
    (Receiver.get true (Cell.init : Cell Nat Nat) Cell.init = none) ∧
    (((Cell.init : Cell Nat Nat).step .resetS).resultAt 0 =
      some (.failure .brokenPromise)) ∧
    (Receiver.get true (Cell.init : Cell Nat Nat)
        ((Cell.init : Cell Nat Nat).run [.resetS, .set_value 99]) =
      some (.error (.thrown .brokenPromise))) ∧
    (((Cell.init : Cell Nat Nat).run
        [.resetS, .set_value 99, .set_value 7]).resultAt 0 ≠
      some (.value 7)) := by
  refine ⟨rfl, rfl, rfl, ?_⟩
  decide

/-- C1, amended: a `get()` begun before a `reset()` is pinned to the
pre-reset generation and never resolves against the post-reset one —
results already stored in any generation survive every later
interleaving, and `reset()` moves the current-generation id forward so
subsequent fulfilments target only newer generations.  However, a
`reset()` applied while the pinned generation is still pending resolves
that generation immediately with BrokenContract (promise abandonment),
so the in-flight `get()` returns BrokenContract regardless of what runs
afterwards; the orphaned generation can never again be fulfilled. -/
theorem c1_amended (c : Cell α ε) (hInv : c.Inv)
    (hpend : c.current.result = none) (ops : List (Op α ε))
    (i : Nat) (r : Res α ε) (hr : c.resultAt i = some r) :
    ((c.step .resetS).run ops).resultAt c.curId =
      some (.failure .brokenPromise) ∧
    Receiver.get true c ((c.step .resetS).run ops) =
      some (.error (.thrown .brokenPromise)) ∧
    (c.step .resetS).curId = c.curId + 1 ∧
    (c.run ops).resultAt i = some r := by
  have hstep : c.step .resetS = c.reset_locked := by
    simp [Cell.step, Sender.reset]
  have h1 : (c.step .resetS).resultAt c.curId = some (.failure .brokenPromise) := by
    rw [hstep, Cell.resultAt_reset_locked, if_neg (Nat.lt_irrefl _), if_pos rfl]
    simp [GenState.abandon, hpend]
  have hInv1 : (c.step .resetS).Inv := Cell.inv_step c _ hInv
  have h2 := Cell.resultAt_run_mono _ ops hInv1 c.curId _ h1
  refine ⟨h2, ?_, ?_, Cell.resultAt_run_mono c ops hInv i r hr⟩
  · simp [Receiver.get, h2, Res.getOutcome]
  · rw [hstep]
    simp [Cell.reset_locked, Cell.curId]

/-- Witness for C1 (amended) at a concrete channel: generation 0 holds
`5`, the current generation 1 is pending; one reset plus a fulfilment of
the newest generation with `99` leaves the pinned generation 1 resolved
as BrokenContract, the in-flight `get()` observing it, and generation
0's stored `5` untouched. -/
theorem c1_amended_witness :
    (let c : Cell Nat Nat :=
      Cell.mk [{ result := some (.value 5), used := true }] GenState.fresh
    ((c.step .resetS).run [.set_value 99]).resultAt c.curId =
      some (.failure .brokenPromise) ∧
    Receiver.get true c ((c.step .resetS).run [.set_value 99]) =
      some (.error (.thrown .brokenPromise)) ∧
    (c.step .resetS).curId = c.curId + 1 ∧
    (c.run [.set_value 99]).resultAt 0 = some (.value 5)) := by
  exact c1_amended _ ⟨by simp, rfl⟩ rfl [.set_value 99] 0 (.value 5) rfl

/-- C2: disposing a Sender (destructor, or move-assigning another Sender
over it) while its generation is unconsumed writes the broken-contract
failure (`broken_promise`) under the lock and marks the generation
consumed, so a subsequent `get()` on that generation terminates with
BrokenContract; on an already-consumed generation disposal is a no-op;
and the move-assignment disposal path coincides with the destructor
path. -/
theorem c2 (c cdone : Cell α ε) (hInv : c.Inv) (hu : c.current.used = false)
    (hdone : cdone.current.used = true) :
    Sender.dispose true c =
      Cell.mk c.history { result := some (.failure .brokenPromise), used := true } ∧
    Receiver.get true (Sender.dispose true c) (Sender.dispose true c) =
      some (.error (.thrown .brokenPromise)) ∧
    Sender.dispose true cdone = cdone ∧
    Sender.moveAssignOldCell false true c = Sender.dispose true c ∧
    Sender.moveAssignOldCell false true cdone = Sender.dispose true cdone := by
  have hres : c.current.result = none := by
    have h := hInv.2
    rw [hu] at h
    exact (Option.not_isSome_iff_eq_none.mp (by rw [← h]; simp)).symm ▸ rfl
  have hdisp : Sender.dispose true c =
      Cell.mk c.history { result := some (.failure .brokenPromise), used := true } := by
    simp [Sender.dispose, hu, hres]
  refine ⟨hdisp, ?_, by simp [Sender.dispose, hdone], rfl, rfl⟩
  rw [hdisp]
  simp [Receiver.get, Cell.resultAt_curId, Res.getOutcome]

/-- Witness for C2 at concrete channels: a fresh cell (unconsumed) and a
cell whose generation already holds `3`. -/
theorem c2_witness :
    (let c : Cell Nat Nat := Cell.init
    let cdone : Cell Nat Nat := Cell.mk [] { result := some (.value 3), used := true }
    Sender.dispose true c =
      Cell.mk c.history { result := some (.failure .brokenPromise), used := true } ∧
    Receiver.get true (Sender.dispose true c) (Sender.dispose true c) =
      some (.error (.thrown .brokenPromise)) ∧
    Sender.dispose true cdone = cdone ∧
    Sender.moveAssignOldCell false true c = Sender.dispose true c ∧
    Sender.moveAssignOldCell false true cdone = Sender.dispose true cdone) := by
  exact c2 _ _ ⟨by simp [Cell.init], rfl⟩ rfl rfl

/-- C3: on a consumed generation both `set_value` and `set_exception`
return `false` and leave the cell (hence the recorded result) unchanged;
on an unconsumed generation `set_value v` writes `v`, marks the
generation consumed and returns `true` (`set_exception` likewise with
its failure); and after a successful `set_value` or a disposal auto-fail
every later fulfilment attempt is a failing no-op. -/
theorem c3 (c cdone : Cell α ε) (hInv : c.Inv) (hu : c.current.used = false)
    (hdone : cdone.current.used = true) (v w : α) (f g : Failure ε) :
    Sender.set_value true cdone v = (false, cdone) ∧
    Sender.set_exception true cdone f = (false, cdone) ∧
    Sender.set_value true c v =
      (true, Cell.mk c.history { result := some (.value v), used := true }) ∧
    Sender.set_exception true c f =
      (true, Cell.mk c.history { result := some (.failure f), used := true }) ∧
    Sender.set_value true (Sender.set_value true c v).2 w =
      (false, (Sender.set_value true c v).2) ∧
    Sender.set_exception true (Sender.set_value true c v).2 g =
      (false, (Sender.set_value true c v).2) ∧
    Sender.set_value true (Sender.dispose true c) w =
      (false, Sender.dispose true c) := by
  have hres : c.current.result = none := by
    have h := hInv.2
    rw [hu] at h
    exact Option.not_isSome_iff_eq_none.mp (by rw [← h]; simp)
  refine ⟨by simp [Sender.set_value, hdone], by simp [Sender.set_exception, hdone],
    by simp [Sender.set_value, hu], by simp [Sender.set_exception, hu], ?_, ?_, ?_⟩
  · simp [Sender.set_value, hu]
  · simp [Sender.set_exception, Sender.set_value, hu]
  · simp [Sender.set_value, Sender.dispose, hu, hres]

/-- Witness for C3 at concrete channels. -/
theorem c3_witness :
    (let c : Cell Nat Nat := Cell.init
    let cdone : Cell Nat Nat := Cell.mk [] { result := some (.value 3), used := true }
    Sender.set_value true cdone 6 = (false, cdone) ∧
    Sender.set_exception true cdone (.propagated 1) = (false, cdone) ∧
    Sender.set_value true c 6 =
      (true, Cell.mk c.history { result := some (.value 6), used := true }) ∧
    Sender.set_exception true c (.propagated 1) =
      (true, Cell.mk c.history
        { result := some (.failure (.propagated 1)), used := true }) ∧
    Sender.set_value true (Sender.set_value true c 6).2 7 =
      (false, (Sender.set_value true c 6).2) ∧
    Sender.set_exception true (Sender.set_value true c 6).2 (.propagated 2) =
      (false, (Sender.set_value true c 6).2) ∧
    Sender.set_value true (Sender.dispose true c) 7 =
      (false, Sender.dispose true c)) := by
  exact c3 _ _ ⟨by simp [Cell.init], rfl⟩ rfl rfl 6 7 (.propagated 1) (.propagated 2)

/-- C4: the timed receive conflates failures with timeout — if the
generation pinned at entry is resolved within the bound with any failure
(broken contract or a producer-set exception), `get_for` returns the
not-available result (`nullopt`, `false` for void), identical to an
ordinary timeout; only a value resolved within the bound is returned
(`some v`, `true` for void). -/
theorem c4 (c cf cval ct : Cell α ε) (v : α) (f : Failure ε)
    (hf : cf.resultAt c.curId = some (.failure f))
    (hv : cval.resultAt c.curId = some (.value v))
    (ht : ct.resultAt c.curId = none)
    (cv cvf cvv : Cell Unit ε) (fv : Failure ε)
    (hvf : cvf.resultAt cv.curId = some (.failure fv))
    (hvv : cvv.resultAt cv.curId = some (.value ())) :
    Receiver.get_for true c cf = none ∧
    Receiver.get_for true c cval = some v ∧
    Receiver.get_for true c ct = none ∧
    ReceiverVoid.get_for true cv cvf = false ∧
    ReceiverVoid.get_for true cv cvv = true := by
  refine ⟨?_, ?_, ?_, ?_, ?_⟩
  · simp [Receiver.get_for, hf]
  · simp [Receiver.get_for, hv]
  · simp [Receiver.get_for, ht]
  · simp [ReceiverVoid.get_for, hvf]
  · simp [ReceiverVoid.get_for, hvv]

/-- Witness for C4 at concrete channels: the pinned generation resolved
with a broken contract, with the value `9`, and still pending at the
deadline; likewise for the void specialization. -/
theorem c4_witness :
    (let c : Cell Nat Nat := Cell.init
    let cf : Cell Nat Nat :=
      Cell.mk [] { result := some (.failure .brokenPromise), used := true }
    let cval : Cell Nat Nat := Cell.mk [] { result := some (.value 9), used := true }
    let cv : Cell Unit Nat := Cell.init
    let cvf : Cell Unit Nat :=
      Cell.mk [] { result := some (.failure (.propagated 4)), used := true }
    let cvv : Cell Unit Nat := Cell.mk [] { result := some (.value ()), used := true }
    Receiver.get_for true c cf = none ∧
    Receiver.get_for true c cval = some 9 ∧
    Receiver.get_for true c c = none ∧
    ReceiverVoid.get_for true cv cvf = false ∧
    ReceiverVoid.get_for true cv cvv = true) := by
  exact c4 Cell.init
    (Cell.mk [] { result := some (.failure .brokenPromise), used := true })
    (Cell.mk [] { result := some (.value 9), used := true })
    Cell.init 9 .brokenPromise rfl rfl rfl
    Cell.init
    (Cell.mk [] { result := some (.failure (.propagated 4)), used := true })
    (Cell.mk [] { result := some (.value ()), used := true })
    (.propagated 4) rfl rfl

/-- C5, counterexample: `Receiver::get()` on an empty (default
constructed or moved-from) handle does not return a no-op failure — it
throws `std::future_error(no_state)` (`OneShotChannel.hpp` line 136),
modelled here as the `noState` error outcome. -/
theorem c5_counterexample :
    Receiver.get (α := Nat) (ε := Nat) false Cell.init Cell.init =
      some (.error .noState) := rfl

/-- C5, amended: every operation on an empty Sender or Receiver handle
is a non-throwing no-op failure — `false` or the empty result — except
`Receiver::get()`, which instead throws `future_error(no_state)` (a
defined, non-fatal exception rather than undefined behavior). -/
theorem c5_amended (c cdl : Cell α ε) (v : α) (f : Failure ε) :
    Sender.set_value false c v = (false, c) ∧
    Sender.set_exception false c f = (false, c) ∧
    Sender.reset false c = (false, c) ∧
    Sender.dispose false c = c ∧
    Sender.moveAssignOldCell false false c = c ∧
    Receiver.reset false c = (false, c) ∧
    Receiver.ready false c = false ∧
    Receiver.get_for false c cdl = none ∧
    Receiver.dispose false c = c ∧
    Receiver.get false c cdl = some (.error .noState) :=
  ⟨rfl, rfl, rfl, rfl, rfl, rfl, rfl, rfl, rfl, rfl⟩

/-- C6: after a `reset()`, a fresh `set_value x` succeeds and the
subsequent `get()` returns exactly `x`, from any starting state (so in
particular independent of values or failures recorded in earlier
generations), and this holds at the end of arbitrarily many
reset-then-fulfil cycles. -/
theorem c6 (c : Cell α ε) (x : α) (xs : List α) :
    (Sender.set_value true (Sender.reset true c).2 x).1 = true ∧
    Receiver.get true (c.fulfillCycle x) (c.fulfillCycle x) = some (.ok x) ∧
    Receiver.get true (List.foldl Cell.fulfillCycle c (xs ++ [x]))
      (List.foldl Cell.fulfillCycle c (xs ++ [x])) = some (.ok x) := by
  have key : ∀ d : Cell α ε,
      Receiver.get true (d.fulfillCycle x) (d.fulfillCycle x) = some (.ok x) := by
    intro d
    simp [Cell.fulfillCycle, Sender.reset, Sender.set_value, Cell.reset_locked,
      GenState.fresh, Receiver.get, Cell.resultAt_curId, Res.getOutcome]
  refine ⟨?_, key c, ?_⟩
  · simp [Sender.reset, Sender.set_value, Cell.reset_locked, GenState.fresh]
  · rw [List.foldl_append]
    simpa using key (List.foldl Cell.fulfillCycle c xs)

/-- C7: `reset()` through a non-empty handle unconditionally installs a
brand-new unset, unconsumed generation (advancing the generation id) and
returns `true`, regardless of the prior generation's consumption state;
on an empty handle it returns `false` and changes nothing; and
`Sender::reset` and `Receiver::reset` have identical semantics. -/
theorem c7 (c : Cell α ε) :
    Sender.reset true c = (true, c.reset_locked) ∧
    Receiver.reset true c = Sender.reset true c ∧
    Sender.reset false c = (false, c) ∧
    Receiver.reset false c = (false, c) ∧
    (c.reset_locked).current = GenState.fresh ∧
    (c.reset_locked).curId = c.curId + 1 := by
  refine ⟨rfl, rfl, rfl, rfl, rfl, ?_⟩
  simp [Cell.reset_locked, Cell.curId]

/-- C8: the cell invariant — every archived generation is resolved and
the `used` flag of the current generation holds exactly when its result
slot has been written — holds initially and is preserved by every public
operation, and a result once stored in a generation is never changed by
any public operation (the slot is written at most once; reset only
archives it and installs a new generation). -/
theorem c8 (c : Cell α ε) (op : Op α ε) (hInv : c.Inv) (i : Nat) (r : Res α ε)
    (hr : c.resultAt i = some r) :
    (Cell.init : Cell α ε).Inv ∧
    (c.step op).Inv ∧
    (c.step op).resultAt i = some r :=
  ⟨Cell.inv_init, Cell.inv_step c op hInv, Cell.resultAt_step_mono c op hInv i r hr⟩

/-- Witness for C8 at a concrete channel: generation 0 already holds
`2`; a `set_value 9` step preserves the invariant and generation 0's
stored result. -/
theorem c8_witness :
    (let c : Cell Nat Nat :=
      Cell.mk [{ result := some (.value 2), used := true }] GenState.fresh
    (Cell.init : Cell Nat Nat).Inv ∧
    (c.step (.set_value 9)).Inv ∧
    (c.step (.set_value 9)).resultAt 0 = some (.value 2)) := by
  exact c8 _ (.set_value 9) ⟨by simp, rfl⟩ 0 (.value 2) rfl

/-- C9: disposing a Receiver (destructor or move, both
compiler-defaulted) never modifies the shared cell's generation state —
no failure is written, the generation is not marked consumed — and a
pending Sender can still fulfil the generation normally afterwards. -/
theorem c9 (c : Cell α ε) (v : α) (hu : c.current.used = false) :
    Receiver.dispose true c = c ∧
    Receiver.dispose false c = c ∧
    Cell.step c .disposeR = c ∧
    Sender.set_value true (Receiver.dispose true c) v =
      (true, Cell.mk c.history { result := some (.value v), used := true }) := by
  refine ⟨rfl, rfl, rfl, ?_⟩
  simp [Receiver.dispose, Sender.set_value, hu]

/-- Witness for C9 at a fresh concrete channel. -/
theorem c9_witness :
    Receiver.dispose true (Cell.init : Cell Nat Nat) = Cell.init ∧
    Receiver.dispose false (Cell.init : Cell Nat Nat) = Cell.init ∧
    Cell.step (Cell.init : Cell Nat Nat) .disposeR = Cell.init ∧
    Sender.set_value true (Receiver.dispose true (Cell.init : Cell Nat Nat)) 5 =
      (true, Cell.mk [] { result := some (.value 5), used := true }) := by
  exact c9 Cell.init 5 rfl

/-- C10: the non-resettable `OneShot<T>::Receiver::get_for` does not
conflate failures with timeout — a generation resolved within the bound
with a stored exception makes `fut_.get()` rethrow it to the caller —
whereas the resettable `OneShotChannel<T>::Receiver::get_for` swallows
the same exception and returns `nullopt`. -/
theorem c10 (c cdl : Cell α ε) (f : Failure ε)
    (hf : cdl.resultAt c.curId = some (.failure f)) :
    OneShotF.Receiver.get_for (some (.failure f)) =
      (.error f : Except (Failure ε) (Option α)) ∧
    Receiver.get_for true c cdl = none := by
  exact ⟨rfl, by simp [Receiver.get_for, hf]⟩

/-- Witness for C10 at a concrete broken-contract resolution. -/
theorem c10_witness :
    OneShotF.Receiver.get_for (some (.failure .brokenPromise)) =
      (.error .brokenPromise : Except (Failure Nat) (Option Nat)) ∧
    Receiver.get_for true (Cell.init : Cell Nat Nat)
      (Cell.mk [] { result := some (.failure .brokenPromise), used := true }) =
      none := by
  exact c10 _ _ .brokenPromise rfl

end OneShotModel
